import Mathlib

/-!
A shallow embedding of the `mlb` repository's core (`src/lineup/mod.rs` and the
data shapes of `src/api/mod.rs`), together with proofs about its pagination and
asynchronous-photo behaviour.

Conventions of the embedding:
* Rust `usize` subtraction is modelled by `checkedSub`, returning `none` where the
  Rust expression underflows (a panic in debug builds).  An operation that can
  panic is therefore `Option`-valued, with `none` standing for the panic.
* The decoded image type `RgbaImage` is an arbitrary type parameter `Img`; the two
  bundled default logos are passed as explicit values of that type.
* A `crossbeam_channel::bounded(1)` channel is a `Chan`: an optional buffered
  value plus flags recording whether the producer or the consumer side has been
  dropped.  `Chan.tryRecv` mirrors `try_recv` (a buffered message is delivered
  even after disconnection; otherwise `empty` or `disconnected`), and `Chan.send`
  mirrors `send` (fails exactly when the receiver is gone).
* The background fetch task's final send step (lineup/mod.rs lines 182-192) is
  `photoTaskSendStep`, which returns the channel state afterwards together with
  the lines the step writes to stderr.
-/

/-- Checked `usize` subtraction: `none` models the underflow panic of a debug
build of Rust. -/
def checkedSub (a b : Nat) : Option Nat :=
  if b ≤ a then some (a - b) else none

namespace api

/-- `api::Photo`: one photo cut from the schedule payload. -/
structure Photo where
  width : Nat
  height : Nat
  src : String

/-- `api::Cuts`: the `480x270` (large) and `320x180` (small) cuts. -/
structure Cuts where
  large : Photo
  small : Photo

/-- `api::Photos`. -/
structure Photos where
  cuts : Cuts

/-- `api::Home`. -/
structure Home where
  headline : String
  subhead : String
  photo : Photos

/-- `api::Recap`. -/
structure Recap where
  home : Home

/-- `api::Editorial`. -/
structure Editorial where
  recap : Recap

/-- `api::Content`. -/
structure Content where
  editorial : Editorial

/-- `api::Game`. -/
structure Game where
  content : Content

/-- `api::Date`. -/
structure Date where
  date : String
  games : List Game

/-- `api::Schedule`: the deserialized listing payload. -/
structure Schedule where
  copyright : String
  dates : List Date

end api

namespace lineup

/-- The `try_recv` outcome of a `crossbeam_channel` receiver. -/
inductive TryRecvResult (Img : Type) where
  | ok (img : Img)
  | empty
  | disconnected

/-- A `crossbeam_channel::bounded(1)` channel: at most one buffered value, plus
flags for whether the sender or the receiver endpoint has been dropped. -/
structure Chan (Img : Type) where
  buf : Option Img
  senderDropped : Bool
  receiverDropped : Bool

/-- `try_recv`: a buffered message is delivered even if the sender is gone;
otherwise the result distinguishes an empty channel from a disconnected one.
Returns the result together with the channel state afterwards. -/
def Chan.tryRecv {Img : Type} (c : Chan Img) : TryRecvResult Img × Chan Img :=
  match c.buf with
  | some img => (TryRecvResult.ok img, { c with buf := none })
  | none =>
    if c.senderDropped then (TryRecvResult.disconnected, c) else (TryRecvResult.empty, c)

/-- `send` on the producer side: fails (returning `none`, the `Err` case) exactly
when the receiver has been dropped; otherwise buffers the value. -/
def Chan.send {Img : Type} (c : Chan Img) (v : Img) : Option (Chan Img) :=
  if c.receiverDropped then none else some { c with buf := some v }

/-- `struct Photo`: the cached decoded image plus the receiving end of the
one-slot channel fed by the background download task. -/
structure Photo (Img : Type) where
  photo : Option Img
  channel : Chan Img

/-- `Photo::new`: constructs the handle with an empty cache and a fresh channel
whose producer (the spawned background task) is still alive.  The network task
itself is modelled separately (`photoTaskSendStep` for its final step). -/
def Photo.new {Img : Type} (_src : String) : Photo Img :=
  { photo := none
    channel := { buf := none, senderDropped := false, receiverDropped := false } }

/-- `Photo::get`: returns the cached image if present; otherwise performs one
non-blocking `try_recv`, caching on success and returning `none` on either
`Empty` or `Disconnected` (the `_ => None` arm). -/
def Photo.get {Img : Type} (p : Photo Img) : Option Img × Photo Img :=
  match p.photo with
  | some img => (some img, p)
  | none =>
    match p.channel.tryRecv with
    | (TryRecvResult.ok img, ch) => (some img, { photo := some img, channel := ch })
    | (_, _) => (none, p)

/-- Iterated polling: the sequence of results of `n` successive `Photo::get`
calls, together with the final state. -/
def Photo.getTrace {Img : Type} : Nat → Photo Img → List (Option Img) × Photo Img
  | 0, p => ([], p)
  | n + 1, p =>
    let r := p.get
    let rest := Photo.getTrace n r.2
    (r.1 :: rest.1, rest.2)

/-- The `Display` text of `crossbeam_channel::SendError`. -/
def sendDisconnectedMsg : String := "sending on a disconnected channel"

/-- Lines 182-192 of lineup/mod.rs: the background task's attempt to hand the
decoded image to the `Photo`.  Returns the channel state afterwards and the
lines written to stderr: nothing on success, and the two `eprintln!` lines when
the send fails because the receiver was dropped. -/
def photoTaskSendStep {Img : Type} (src : String) (c : Chan Img) (img : Img) :
    Chan Img × List String :=
  match c.send img with
  | some c' => (c', [])
  | none =>
    (c, ["Failed to send the downloaded contents of " ++ src ++ " to the main thread",
         "Error: " ++ sendDisconnectedMsg])

/-- `enum Snippet`. -/
inductive Snippet (Img : Type) where
  | Small (img : Img)
  | Large (img : Img) (headline subhead : String)

/-- Whether a snippet is the focused (`Large`) variant. -/
def Snippet.isLarge {Img : Type} : Snippet Img → Bool
  | Snippet.Large _ _ _ => true
  | Snippet.Small _ => false

/-- `struct Game` of the lineup module. -/
structure Game (Img : Type) where
  headline : String
  subhead : String
  large : Photo Img
  small : Photo Img

/-- `struct Schedule` of the lineup module. -/
structure Schedule (Img : Type) where
  games : List (Game Img)
  cursor : Nat

/-- `Schedule::PAGE_SIZE`. -/
def Schedule.PAGE_SIZE : Nat := 5

/-- `Schedule::left`: decrement the cursor unless it is already `0`. -/
def Schedule.left {Img : Type} (s : Schedule Img) : Schedule Img :=
  if 0 < s.cursor then { s with cursor := s.cursor - 1 } else s

/-- `Schedule::right`: increment the cursor if it is below `games.len() - 2`;
the subtraction underflows (`none`) when there are fewer than two games. -/
def Schedule.right {Img : Type} (s : Schedule Img) : Option (Schedule Img) :=
  (checkedSub s.games.length 2).map fun bound =>
    if s.cursor < bound then { s with cursor := s.cursor + 1 } else s

/-- `Schedule::has_more`: `cursor < games.len() - PAGE_SIZE`, underflowing when
there are fewer than `PAGE_SIZE` games. -/
def Schedule.has_more {Img : Type} (s : Schedule Img) : Option Bool :=
  (checkedSub s.games.length Schedule.PAGE_SIZE).map fun bound =>
    decide (s.cursor < bound)

/-- `Schedule::has_less`: `cursor > PAGE_SIZE - 1` (no underflow: the
subtrahend is a constant). -/
def Schedule.has_less {Img : Type} (s : Schedule Img) : Bool :=
  decide (Schedule.PAGE_SIZE - 1 < s.cursor)

/-- The body of the closure mapped over the page slice in `Schedule::page`:
element `idx` of the slice becomes the `Large` snippet when `idx` equals the
page focus, otherwise a `Small` snippet, with the bundled logo substituted when
the polled photo is not ready. -/
def mkSnippet {Img : Type} (dl ds : Img) (focus idx : Nat) (g : Game Img) : Snippet Img :=
  if idx = focus then
    Snippet.Large ((g.large.get).1.getD dl) g.headline g.subhead
  else
    Snippet.Small ((g.small.get).1.getD ds)

/-- The `iter_mut().enumerate().map(...)` pass of `Schedule::page` over the page
slice, starting at slice index `i`: produces the snippets in order and the
games with their polled photo states written back. -/
def renderSlice {Img : Type} (dl ds : Img) (focus : Nat) :
    Nat → List (Game Img) → List (Snippet Img) × List (Game Img)
  | _, [] => ([], [])
  | i, g :: rest =>
    let r := renderSlice dl ds focus (i + 1) rest
    if i = focus then
      (Snippet.Large ((g.large.get).1.getD dl) g.headline g.subhead :: r.1,
       { g with large := (g.large.get).2 } :: r.2)
    else
      (Snippet.Small ((g.small.get).1.getD ds) :: r.1,
       { g with small := (g.small.get).2 } :: r.2)

/-- `Schedule::page`: computes the page window, renders one snippet per slice
element, and writes the polled photo states back into the schedule.  `none`
models a panic: the `games.len() - 1` underflow on an empty schedule, or an
out-of-range slice `[left..right]`. -/
def Schedule.page {Img : Type} (dl ds : Img) (s : Schedule Img) :
    Option (List (Snippet Img) × Schedule Img) :=
  let page := s.cursor / Schedule.PAGE_SIZE
  let left := page * Schedule.PAGE_SIZE
  match checkedSub s.games.length 1 with
  | none => none
  | some lenm1 =>
    let right := if left + Schedule.PAGE_SIZE < lenm1 then left + Schedule.PAGE_SIZE else lenm1
    if left ≤ right ∧ right ≤ s.games.length then
      let pageFocus := s.cursor % Schedule.PAGE_SIZE
      let r := renderSlice dl ds pageFocus 0 ((s.games.drop left).take (right - left))
      some (r.1, { s with games := s.games.take left ++ r.2 ++ s.games.drop right })
    else none

/-- The per-game conversion inside `From<api::Schedule> for Schedule`. -/
def gameOfApi {Img : Type} (g : api.Game) : Game Img :=
  { headline := g.content.editorial.recap.home.headline
    subhead := g.content.editorial.recap.home.subhead
    large := Photo.new g.content.editorial.recap.home.photo.cuts.large.src
    small := Photo.new g.content.editorial.recap.home.photo.cuts.small.src }

/-- `From<api::Schedule> for Schedule`: pops the last `dates` entry —
`unwrap()`ing, so `none` (panic) on an empty `dates` list — and converts its
games in order, starting at cursor `0`. -/
def Schedule.fromApi {Img : Type} (sched : api.Schedule) : Option (Schedule Img) :=
  match sched.dates.getLast? with
  | none => none
  | some d => some { games := d.games.map gameOfApi, cursor := 0 }

/-- One discrete navigation input signal. -/
inductive Move where
  | left
  | right

/-- Runs a finite sequence of `left`/`right` navigation calls on a schedule;
`none` models a panic inside `Schedule::right`. -/
def applyMoves {Img : Type} : List Move → Schedule Img → Option (Schedule Img)
  | [], s => some s
  | Move.left :: ms, s => applyMoves ms s.left
  | Move.right :: ms, s => s.right.bind (applyMoves ms)

/-- The window start computed inside `Schedule::page`:
`(cursor / PAGE_SIZE) * PAGE_SIZE`. -/
def pageWinStart {Img : Type} (s : Schedule Img) : Nat :=
  s.cursor / Schedule.PAGE_SIZE * Schedule.PAGE_SIZE

/-- The window end computed inside `Schedule::page`: the branch on
`left + PAGE_SIZE < games.len() - 1` amounts to
`min (window_start + PAGE_SIZE) (games.len() - 1)`. -/
def pageWinEnd {Img : Type} (s : Schedule Img) : Nat :=
  min (pageWinStart s + Schedule.PAGE_SIZE) (s.games.length - 1)

/-- The slice `games[left..right]` rendered by `Schedule::page`. -/
def pageSlice {Img : Type} (s : Schedule Img) : List (Game Img) :=
  (s.games.drop (pageWinStart s)).take (pageWinEnd s - pageWinStart s)

/-- A photo handle still waiting for its download: nothing cached, nothing
buffered, producer alive. -/
def pendingPhoto : Photo Nat :=
  { photo := none, channel := { buf := none, senderDropped := false, receiverDropped := false } }

/-- A photo handle whose background task has delivered the value `7` into the
channel but which has not been polled since. -/
def readyPhoto : Photo Nat :=
  { photo := none, channel := { buf := some 7, senderDropped := false, receiverDropped := false } }

/-- A photo handle that has already cached the value `7`. -/
def cachedPhoto : Photo Nat :=
  { photo := some 7, channel := { buf := none, senderDropped := false, receiverDropped := false } }

/-- A photo handle whose background task terminated without ever sending: the
producer side of the channel was dropped. -/
def droppedPhoto : Photo Nat :=
  { photo := none, channel := { buf := none, senderDropped := true, receiverDropped := false } }

/-- A channel whose receiving `Photo` has been dropped. -/
def droppedChan : Chan Nat :=
  { buf := none, senderDropped := false, receiverDropped := true }

/-- A concrete game value for concrete schedules. -/
def sampleGame : Game Nat :=
  { headline := "h", subhead := "s", large := Photo.new "L", small := Photo.new "S" }

/-- A concrete schedule with `n` games and the given cursor. -/
def sampleSchedule (n cursor : Nat) : Schedule Nat :=
  { games := List.replicate n sampleGame, cursor := cursor }

/-- A concrete photo cut of the api payload. -/
def samplePhotoCut : api.Photo := { width := 480, height := 270, src := "u" }

/-- A concrete api game. -/
def sampleApiGame : api.Game :=
  { content :=
    { editorial :=
      { recap :=
        { home :=
          { headline := "h", subhead := "s"
            photo := { cuts := { large := samplePhotoCut, small := samplePhotoCut } } } } } } }

/-- A concrete api dates entry with two games. -/
def sampleDate : api.Date := { date := "2018-06-10", games := [sampleApiGame, sampleApiGame] }

/-- A concrete api schedule payload with one dates entry. -/
def samplePayload : api.Schedule := { copyright := "c", dates := [sampleDate] }

/-- A concrete api schedule payload with an empty dates list. -/
def emptyDatesPayload : api.Schedule := { copyright := "c", dates := [] }

end lineup

namespace lineup

/-- A `get` on a photo with a cached value returns it and leaves the state
(channel included) untouched. -/
theorem Photo.get_cached {Img : Type} (p : Photo Img) (v : Img) (h : p.photo = some v) :
    p.get = (some v, p) := by
  simp [Photo.get, h]

/-- A `get` on a photo with no cached value and an empty channel buffer returns
`none` and leaves the state untouched, whether or not the producer is gone. -/
theorem Photo.get_pending {Img : Type} (p : Photo Img)
    (h1 : p.photo = none) (h2 : p.channel.buf = none) :
    p.get = (none, p) := by
  simp only [Photo.get, h1, Chan.tryRecv, h2]
  cases p.channel.senderDropped <;> simp

/-- A `get` on a photo with no cached value but a buffered delivery caches the
value and returns it, emptying the channel buffer. -/
theorem Photo.get_ready {Img : Type} (p : Photo Img) (v : Img)
    (h1 : p.photo = none) (h2 : p.channel.buf = some v) :
    p.get = (some v, { photo := some v, channel := { p.channel with buf := none } }) := by
  simp [Photo.get, h1, Chan.tryRecv, h2]

/-- Iterated polling of a photo with a cached value: every call returns the
cached value and the state never changes. -/
theorem Photo.getTrace_cached {Img : Type} (p : Photo Img) (v : Img) (h : p.photo = some v) :
    ∀ n, Photo.getTrace n p = (List.replicate n (some v), p) := by
  intro n
  induction n with
  | zero => simp [Photo.getTrace]
  | succ n ih => simp [Photo.getTrace, Photo.get_cached p v h, ih, List.replicate_succ]

/-- Iterated polling of a photo with nothing cached and nothing buffered: every
call returns `none` and the state never changes. -/
theorem Photo.getTrace_pending {Img : Type} (p : Photo Img)
    (h1 : p.photo = none) (h2 : p.channel.buf = none) :
    ∀ n, Photo.getTrace n p = (List.replicate n none, p) := by
  intro n
  induction n with
  | zero => simp [Photo.getTrace]
  | succ n ih => simp [Photo.getTrace, Photo.get_pending p h1 h2, ih, List.replicate_succ]

/-- C5: `Photo::get` returns `None` on every call while nothing has been
delivered; the first call after a delivery caches the value, returns it and
empties the channel; every later call returns the same cached value with the
state (channel included) untouched; and a populated cache is never cleared or
overwritten. -/
theorem photo_get_monotone_cache {Img : Type} (p : Photo Img) (v : Img) :
    (p.photo = none → p.channel.buf = none →
      ∀ n, Photo.getTrace n p = (List.replicate n none, p)) ∧
    (p.photo = none → p.channel.buf = some v →
      p.get = (some v, { photo := some v, channel := { p.channel with buf := none } })) ∧
    (p.photo = some v →
      ∀ n, Photo.getTrace n p = (List.replicate n (some v), p)) ∧
    (p.photo = some v → (p.get).2.photo = some v) :=
  ⟨fun h1 h2 => Photo.getTrace_pending p h1 h2,
   fun h1 h2 => Photo.get_ready p v h1 h2,
   fun h => Photo.getTrace_cached p v h,
   fun h => by rw [Photo.get_cached p v h]; exact h⟩

/-- Witness for C5 at concrete photos: two polls of a still-pending photo both
return `None` and leave it pending; one poll of a delivered-but-unpolled photo
returns the value and caches it; three polls of a cached photo all return the
cached value and leave the state unchanged. -/
theorem photo_get_monotone_cache_witness :
    Photo.getTrace 2 pendingPhoto = (List.replicate 2 none, pendingPhoto) ∧
    readyPhoto.get = (some 7, { photo := some 7, channel := { readyPhoto.channel with buf := none } }) ∧
    Photo.getTrace 3 cachedPhoto = (List.replicate 3 (some 7), cachedPhoto) :=
  ⟨(photo_get_monotone_cache pendingPhoto 7).1 rfl rfl 2,
   (photo_get_monotone_cache readyPhoto 7).2.1 rfl rfl,
   (photo_get_monotone_cache cachedPhoto 7).2.2.1 rfl 3⟩

/-- C6: a photo whose background task terminated without ever sending (the
producer side of the channel dropped, nothing buffered) returns `None` from
every `get`, indefinitely, without error and with no state change — and its
observable behaviour is identical to that of a still-loading photo whose
producer is alive. -/
theorem photo_dropped_producer_forever_none {Img : Type} (p : Photo Img)
    (h1 : p.photo = none) (h2 : p.channel.buf = none)
    (_h3 : p.channel.senderDropped = true) :
    ∀ n, Photo.getTrace n p = (List.replicate n none, p) ∧
      (Photo.getTrace n p).1 =
        (Photo.getTrace n { p with channel := { p.channel with senderDropped := false } }).1 := by
  intro n
  constructor
  · exact Photo.getTrace_pending p h1 h2 n
  · rw [Photo.getTrace_pending p h1 h2 n,
      Photo.getTrace_pending { p with channel := { p.channel with senderDropped := false } } h1 h2 n]

/-- Witness for C6: three polls of the concrete dropped-producer photo all
return `None`, leave it unchanged, and agree with the still-loading photo. -/
theorem photo_dropped_producer_forever_none_witness :
    Photo.getTrace 3 droppedPhoto = (List.replicate 3 none, droppedPhoto) ∧
    (Photo.getTrace 3 droppedPhoto).1 =
      (Photo.getTrace 3 { droppedPhoto with
        channel := { droppedPhoto.channel with senderDropped := false } }).1 :=
  photo_dropped_producer_forever_none droppedPhoto rfl rfl rfl 3

/-- C8 counterexample: the claim says the background task's send into a channel
whose receiver was dropped is a silent no-op, not treated or reported as an
error; but at this concrete input the send step's `Err` arm writes two
`eprintln!` lines to stderr — the failure is reported. -/
theorem send_step_not_silent :
    (photoTaskSendStep "http://x/a.jpg" droppedChan 0).2 ≠ [] := by
  simp [photoTaskSendStep, Chan.send, droppedChan]

/-- C8 amended: when the receiving side of the channel has been dropped, the
background task's send step delivers nothing, terminates normally (no panic,
the channel is left unchanged), but logs the failure to stderr with the two
`eprintln!` lines — it is not silent. -/
theorem send_step_on_dropped_receiver {Img : Type} (src : String) (c : Chan Img) (img : Img)
    (h : c.receiverDropped = true) :
    photoTaskSendStep src c img =
      (c, ["Failed to send the downloaded contents of " ++ src ++ " to the main thread",
           "Error: " ++ sendDisconnectedMsg]) := by
  simp [photoTaskSendStep, Chan.send, h]

/-- Witness for the amended C8 at a concrete channel and image. -/
theorem send_step_on_dropped_receiver_witness :
    photoTaskSendStep "http://x/a.jpg" droppedChan 0 =
      (droppedChan,
       ["Failed to send the downloaded contents of http://x/a.jpg to the main thread",
        "Error: " ++ sendDisconnectedMsg]) :=
  send_step_on_dropped_receiver "http://x/a.jpg" droppedChan 0 rfl

/-- The snippet list produced by the page-slice pass has one entry per slice
element. -/
theorem renderSlice_fst_length {Img : Type} (dl ds : Img) (focus : Nat) :
    ∀ (gs : List (Game Img)) (i : Nat), ((renderSlice dl ds focus i gs).1).length = gs.length := by
  intro gs
  induction gs with
  | nil => intro i; simp [renderSlice]
  | cons g rest ih =>
    intro i
    simp only [renderSlice]
    split <;> simp [ih]

/-- Element `j` of the snippet list produced by the page-slice pass starting at
slice index `i` is the closure applied at slice index `i + j`. -/
theorem renderSlice_fst_get {Img : Type} (dl ds : Img) (focus : Nat) :
    ∀ (gs : List (Game Img)) (i j : Nat),
      ((renderSlice dl ds focus i gs).1)[j]? =
        (gs[j]?).map (mkSnippet dl ds focus (i + j)) := by
  intro gs
  induction gs with
  | nil => intro i j; simp [renderSlice]
  | cons g rest ih =>
    intro i j
    cases j with
    | zero =>
      simp only [renderSlice]
      split
      · next h => simp [mkSnippet, h]
      · next h => simp [mkSnippet, h]
    | succ j =>
      have harith : i + 1 + j = i + (j + 1) := by omega
      simp only [renderSlice]
      split <;> simp [ih (i + 1) j, harith]

/-- The page-slice pass starting at slice index `i` produces exactly one
`Large` snippet when the focus index lies inside the slice, and none
otherwise. -/
theorem renderSlice_fst_countP {Img : Type} (dl ds : Img) (focus : Nat) :
    ∀ (gs : List (Game Img)) (i : Nat),
      List.countP Snippet.isLarge (renderSlice dl ds focus i gs).1 =
        if i ≤ focus ∧ focus < i + gs.length then 1 else 0 := by
  intro gs
  induction gs with
  | nil =>
    intro i
    simp only [renderSlice, List.countP_nil, List.length_nil]
    split_ifs with h
    · omega
    · rfl
  | cons g rest ih =>
    intro i
    simp only [renderSlice, List.length_cons]
    by_cases h : i = focus
    · simp [if_pos h, List.countP_cons, ih (i + 1), Snippet.isLarge]
      split_ifs <;> omega
    · simp [if_neg h, List.countP_cons, ih (i + 1), Snippet.isLarge]
      split_ifs <;> omega

/-- The page slice has `window_end - window_start` elements. -/
theorem pageSlice_length {Img : Type} (s : Schedule Img) :
    (pageSlice s).length = pageWinEnd s - pageWinStart s := by
  have hend : pageWinEnd s ≤ s.games.length := by
    have := min_le_right (pageWinStart s + Schedule.PAGE_SIZE) (s.games.length - 1)
    simp only [pageWinEnd]
    omega
  simp only [pageSlice, List.length_take, List.length_drop]
  omega

/-- Element `j` of the page slice is game `window_start + j` of the listing. -/
theorem pageSlice_get {Img : Type} (s : Schedule Img) (j : Nat)
    (hj : j < pageWinEnd s - pageWinStart s) :
    (pageSlice s)[j]? = s.games[pageWinStart s + j]? := by
  simp [pageSlice, List.getElem?_take, hj, List.getElem?_drop]

/-- Evaluation of `Schedule::page` on a nonempty listing whose window start is
in range: the slice is rendered and the polled games are written back. -/
theorem page_eq_some {Img : Type} (dl ds : Img) (s : Schedule Img)
    (h1 : 1 ≤ s.games.length) (h2 : pageWinStart s ≤ s.games.length - 1) :
    s.page dl ds = some
      ((renderSlice dl ds (s.cursor % Schedule.PAGE_SIZE) 0 (pageSlice s)).1,
       { s with games :=
          s.games.take (pageWinStart s) ++
          (renderSlice dl ds (s.cursor % Schedule.PAGE_SIZE) 0 (pageSlice s)).2 ++
          s.games.drop (pageWinEnd s) }) := by
  have hsub : checkedSub s.games.length 1 = some (s.games.length - 1) := by
    simp [checkedSub, h1]
  have hAB : pageWinStart s ≤ pageWinEnd s :=
    le_min (Nat.le_add_right _ _) h2
  have hBl : pageWinEnd s ≤ s.games.length :=
    le_trans (min_le_right _ _) (Nat.sub_le _ _)
  have hmin : (if s.cursor / Schedule.PAGE_SIZE * Schedule.PAGE_SIZE + Schedule.PAGE_SIZE <
        s.games.length - 1
      then s.cursor / Schedule.PAGE_SIZE * Schedule.PAGE_SIZE + Schedule.PAGE_SIZE
      else s.games.length - 1) = pageWinEnd s := by
    simp only [pageWinEnd, pageWinStart]
    split_ifs with h
    · exact (min_eq_left (le_of_lt h)).symm
    · exact (min_eq_right (by omega)).symm
  have hAB' : s.cursor / Schedule.PAGE_SIZE * Schedule.PAGE_SIZE ≤ pageWinEnd s := hAB
  simp only [Schedule.page, hsub]
  rw [hmin]
  rw [if_pos (And.intro hAB' hBl)]
  rfl

/-- `Schedule::left` never touches the games and saturates the cursor at `0`. -/
theorem left_games_cursor {Img : Type} (s : Schedule Img) :
    s.left.games = s.games ∧ s.left.cursor = s.cursor - 1 := by
  unfold Schedule.left
  split
  · exact ⟨rfl, rfl⟩
  · exact ⟨rfl, by omega⟩

/-- Evaluation of `Schedule::right` on a listing with at least two games. -/
theorem right_eq {Img : Type} (s : Schedule Img) (h : 2 ≤ s.games.length) :
    s.right = some
      (if s.cursor < s.games.length - 2 then { s with cursor := s.cursor + 1 } else s) := by
  simp [Schedule.right, checkedSub, h]

/-- Any finite sequence of navigation moves started in the valid cursor range
succeeds, keeps the cursor in the valid range, and never touches the games. -/
theorem applyMoves_inv {Img : Type} :
    ∀ (moves : List Move) (s : Schedule Img), 2 ≤ s.games.length →
      s.cursor ≤ s.games.length - 2 →
      ∃ s2, applyMoves moves s = some s2 ∧ s2.cursor ≤ s.games.length - 2 ∧
        s2.games = s.games := by
  intro moves
  induction moves with
  | nil => intro s _ hc; exact ⟨s, rfl, hc, rfl⟩
  | cons m rest ih =>
    intro s h2 hc
    cases m with
    | left =>
      obtain ⟨hg, hcur⟩ := left_games_cursor s
      obtain ⟨s2, he, hc2, hg2⟩ := ih s.left (by rw [hg]; exact h2) (by rw [hg, hcur]; omega)
      refine ⟨s2, by simpa [applyMoves] using he, ?_, ?_⟩
      · rw [hg] at hc2; exact hc2
      · rw [hg2, hg]
    | right =>
      have hr := right_eq s h2
      set s1 := if s.cursor < s.games.length - 2 then { s with cursor := s.cursor + 1 } else s
        with hs1
      have hg : s1.games = s.games := by rw [hs1]; split <;> rfl
      have hcur : s1.cursor ≤ s.games.length - 2 := by
        rw [hs1]; split
        · show s.cursor + 1 ≤ s.games.length - 2
          omega
        · exact hc
      obtain ⟨s2, he, hc2, hg2⟩ := ih s1 (by rw [hg]; exact h2) (by rw [hg]; exact hcur)
      refine ⟨s2, by simp [applyMoves, hr, he], ?_, ?_⟩
      · rw [hg] at hc2; exact hc2
      · rw [hg2, hg]

/-- C2: starting from any cursor in `[0, games.len() - 2]` on a listing with at
least two games, `left` decrements saturating at `0`, `right` increments
saturating at `games.len() - 2`, neither touches the games, and every finite
sequence of such calls succeeds (no wrap, no error) with the cursor staying in
`[0, games.len() - 2]`. -/
theorem nav_cursor_saturating {Img : Type} (s : Schedule Img) (hlen : 2 ≤ s.games.length) :
    (s.left.games = s.games ∧ s.left.cursor = s.cursor - 1) ∧
    (s.cursor ≤ s.games.length - 2 →
      s.right = some { s with cursor := min (s.cursor + 1) (s.games.length - 2) }) ∧
    (∀ moves : List Move, s.cursor ≤ s.games.length - 2 →
      ∃ s2, applyMoves moves s = some s2 ∧ s2.cursor ≤ s.games.length - 2 ∧
        s2.games = s.games) := by
  refine ⟨left_games_cursor s, ?_, ?_⟩
  · intro hc
    rw [right_eq s hlen]
    congr 1
    split
    · next h =>
      have hm : min (s.cursor + 1) (s.games.length - 2) = s.cursor + 1 := by omega
      rw [hm]
    · next h =>
      have hm : min (s.cursor + 1) (s.games.length - 2) = s.cursor := by omega
      rw [hm]
  · intro moves hc
    exact applyMoves_inv moves s hlen hc

/-- Witness for C2: from cursor 7 of a 14-game schedule, the move sequence
right, left, left lands on a cursor still inside `[0, 12]` with the games
untouched. -/
theorem nav_cursor_saturating_witness :
    ∃ s2, applyMoves [Move.right, Move.left, Move.left] (sampleSchedule 14 7) = some s2 ∧
      s2.cursor ≤ (sampleSchedule 14 7).games.length - 2 ∧
      s2.games = (sampleSchedule 14 7).games := by
  obtain ⟨-, -, h3⟩ := nav_cursor_saturating (sampleSchedule 14 7) (by decide)
  exact h3 [Move.right, Move.left, Move.left] (by decide)

/-- C3: `has_less` is true exactly when `cursor ≥ 5`, and on a listing with at
least `PAGE_SIZE` games `has_more` returns exactly `cursor < games.len() - 5`. -/
theorem paging_flags {Img : Type} (s : Schedule Img) :
    (s.has_less = true ↔ 5 ≤ s.cursor) ∧
    (5 ≤ s.games.length →
      s.has_more = some (decide (s.cursor < s.games.length - 5))) := by
  constructor
  · simp only [Schedule.has_less, Schedule.PAGE_SIZE, decide_eq_true_eq]
    omega
  · intro h
    simp [Schedule.has_more, checkedSub, Schedule.PAGE_SIZE, h]

/-- Witness for C3 at the 14-game schedule focused on game 7: there is a page
to the left and a page to the right. -/
theorem paging_flags_witness :
    (sampleSchedule 14 7).has_less = true ∧
    (sampleSchedule 14 7).has_more = some true := by
  obtain ⟨h1, h2⟩ := paging_flags (sampleSchedule 14 7)
  refine ⟨h1.mpr (by decide), ?_⟩
  rw [h2 (by decide)]
  decide

/-- C9: the pagination operations are only total for sufficiently large
listings — with fewer than two games `right` hits the `games.len() - 2`
underflow, with fewer than five games `has_more` hits the
`games.len() - PAGE_SIZE` underflow, and with no games `page` hits the
`games.len() - 1` underflow (each `none` models the debug-build panic). -/
theorem short_listing_underflows {Img : Type} (dl ds : Img) (s : Schedule Img) :
    (s.games.length < 2 → s.right = none) ∧
    (s.games.length < 5 → s.has_more = none) ∧
    (s.games.length = 0 → s.page dl ds = none) := by
  refine ⟨fun h => ?_, fun h => ?_, fun h => ?_⟩
  · simp [Schedule.right, checkedSub, show ¬ 2 ≤ s.games.length by omega]
  · simp [Schedule.has_more, checkedSub, Schedule.PAGE_SIZE,
      show ¬ 5 ≤ s.games.length by omega]
  · simp [Schedule.page, checkedSub, h]

/-- Witness for C9: on the empty schedule all three operations underflow. -/
theorem short_listing_underflows_witness :
    (sampleSchedule 0 0).right = none ∧
    (sampleSchedule 0 0).has_more = none ∧
    (sampleSchedule 0 0).page 0 1 = none := by
  obtain ⟨h1, h2, h3⟩ := short_listing_underflows (0 : Nat) 1 (sampleSchedule 0 0)
  exact ⟨h1 (by decide), h2 (by decide), h3 (by decide)⟩

/-- C1: for a cursor in the valid range, `page` computes
`window_start = (cursor / 5) * 5` and `window_end = min (window_start + 5)
(games.len() - 1)`, and returns one snippet per item of
`games[window_start..window_end]` in order; since `window_end ≤ games.len() -
1`, the final item of the listing is never in any window. -/
theorem page_window_correct {Img : Type} (dl ds : Img) (s : Schedule Img)
    (hlen : 2 ≤ s.games.length) (hc : s.cursor ≤ s.games.length - 2) :
    ∃ snips s2, s.page dl ds = some (snips, s2) ∧
      snips.length =
        min (s.cursor / 5 * 5 + 5) (s.games.length - 1) - s.cursor / 5 * 5 ∧
      (∀ j < snips.length,
        snips[j]? = (s.games[s.cursor / 5 * 5 + j]?).map (mkSnippet dl ds (s.cursor % 5) j)) ∧
      min (s.cursor / 5 * 5 + 5) (s.games.length - 1) ≤ s.games.length - 1 := by
  have h1 : 1 ≤ s.games.length := by omega
  have hws : pageWinStart s = s.cursor / 5 * 5 := rfl
  have hwe : pageWinEnd s = min (s.cursor / 5 * 5 + 5) (s.games.length - 1) := rfl
  have h2 : pageWinStart s ≤ s.games.length - 1 := by
    rw [hws]
    have hd := Nat.div_mul_le_self s.cursor 5
    omega
  refine ⟨_, _, page_eq_some dl ds s h1 h2, ?_, ?_, ?_⟩
  · rw [renderSlice_fst_length dl ds _ (pageSlice s) 0, pageSlice_length s, hws, hwe]
  · intro j hj
    rw [renderSlice_fst_length dl ds _ (pageSlice s) 0, pageSlice_length s] at hj
    rw [renderSlice_fst_get dl ds _ (pageSlice s) 0 j, Nat.zero_add,
      pageSlice_get s j hj, hws]
    rfl
  · rw [hwe.symm]
    exact min_le_right _ _

/-- Witness for C1: the 14-game schedule focused on game 7 pages successfully,
and its window `[5..10) ∩ [0..13)` has exactly five snippets. -/
theorem page_window_correct_witness :
    ∃ snips s2, (sampleSchedule 14 7).page 0 1 = some (snips, s2) ∧ snips.length = 5 := by
  obtain ⟨snips, s2, hp, hl, -, -⟩ :=
    page_window_correct 0 1 (sampleSchedule 14 7) (by decide) (by decide)
  refine ⟨snips, s2, hp, ?_⟩
  rw [hl]
  decide

/-- C4: for a cursor in the valid range, `page` returns at most five snippets,
exactly one of which is the focused `Large` variant — the one at slice index
`cursor % 5`, built from that game's polled large image (with the bundled
default substituted when not ready), heading and subheading — and every other
snippet in the window is the `Small` variant built from the polled small image
with the same default substitution. -/
theorem page_single_focus {Img : Type} (dl ds : Img) (s : Schedule Img)
    (hlen : 2 ≤ s.games.length) (hc : s.cursor ≤ s.games.length - 2) :
    ∃ snips s2, s.page dl ds = some (snips, s2) ∧
      snips.length ≤ 5 ∧
      List.countP Snippet.isLarge snips = 1 ∧
      snips[s.cursor % 5]? = (s.games[s.cursor]?).map
        (fun g => Snippet.Large ((g.large.get).1.getD dl) g.headline g.subhead) ∧
      (∀ j < snips.length, j ≠ s.cursor % 5 →
        snips[j]? = (s.games[s.cursor / 5 * 5 + j]?).map
          (fun g => Snippet.Small ((g.small.get).1.getD ds))) := by
  have h1 : 1 ≤ s.games.length := by omega
  have hws : pageWinStart s = s.cursor / 5 * 5 := rfl
  have hwe : pageWinEnd s = min (s.cursor / 5 * 5 + 5) (s.games.length - 1) := rfl
  have h2 : pageWinStart s ≤ s.games.length - 1 := by
    rw [hws]
    have hd := Nat.div_mul_le_self s.cursor 5
    omega
  have hfoc : s.cursor % 5 < pageWinEnd s - pageWinStart s := by
    rw [hws, hwe]
    omega
  refine ⟨_, _, page_eq_some dl ds s h1 h2, ?_, ?_, ?_, ?_⟩
  · rw [renderSlice_fst_length dl ds _ (pageSlice s) 0, pageSlice_length s, hws, hwe]
    omega
  · rw [renderSlice_fst_countP dl ds _ (pageSlice s) 0, pageSlice_length s]
    have hcond : (0 : Nat) ≤ s.cursor % Schedule.PAGE_SIZE ∧
        s.cursor % Schedule.PAGE_SIZE < 0 + (pageWinEnd s - pageWinStart s) := by
      refine ⟨Nat.zero_le _, ?_⟩
      rw [Nat.zero_add]
      exact hfoc
    rw [if_pos hcond]
  · rw [renderSlice_fst_get dl ds _ (pageSlice s) 0 (s.cursor % 5), Nat.zero_add,
      pageSlice_get s _ hfoc]
    have hc' : pageWinStart s + s.cursor % 5 = s.cursor := by
      rw [hws]
      omega
    rw [hc']
    cases hg : s.games[s.cursor]? with
    | none => simp
    | some g => simp [mkSnippet, Schedule.PAGE_SIZE]
  · intro j hj hne
    rw [renderSlice_fst_length dl ds _ (pageSlice s) 0, pageSlice_length s] at hj
    rw [renderSlice_fst_get dl ds _ (pageSlice s) 0 j, Nat.zero_add,
      pageSlice_get s j hj, hws]
    cases hg : s.games[s.cursor / 5 * 5 + j]? with
    | none => simp
    | some g => simp [mkSnippet, Schedule.PAGE_SIZE, hne]

/-- Witness for C4: the page of the 14-game schedule focused on game 7
contains exactly one `Large` snippet. -/
theorem page_single_focus_witness :
    ∃ snips s2, (sampleSchedule 14 7).page 0 1 = some (snips, s2) ∧
      List.countP Snippet.isLarge snips = 1 := by
  obtain ⟨snips, s2, hp, -, hcount, -, -⟩ :=
    page_single_focus 0 1 (sampleSchedule 14 7) (by decide) (by decide)
  exact ⟨snips, s2, hp, hcount⟩

/-- C7 counterexample: the claim says constructing the lineup schedule never
panics for any input, but on a payload whose `dates` list is empty the
conversion `unwrap()`s the `None` of `dates.pop()` — a panic, modelled here by
`none`. -/
theorem fromApi_empty_dates_panics :
    (Schedule.fromApi emptyDatesPayload : Option (Schedule Nat)) = none := rfl

/-- C7 amended: the conversion completes without panicking for every payload
whose `dates` list is nonempty; `left` and `has_less` are total by
construction; `right` does not panic when there are at least two games,
`has_more` when there are at least five, and `page` whenever the listing is
nonempty and the cursor is in the valid range. -/
theorem core_no_panic_when_adequate {Img : Type} (dl ds : Img) :
    (∀ payload : api.Schedule, payload.dates ≠ [] →
      (Schedule.fromApi payload : Option (Schedule Img)).isSome = true) ∧
    (∀ s : Schedule Img, 2 ≤ s.games.length → s.right.isSome = true) ∧
    (∀ s : Schedule Img, 5 ≤ s.games.length → s.has_more.isSome = true) ∧
    (∀ s : Schedule Img, 1 ≤ s.games.length → s.cursor ≤ s.games.length - 2 →
      (s.page dl ds).isSome = true) := by
  refine ⟨?_, ?_, ?_, ?_⟩
  · intro payload hne
    cases hl : payload.dates.getLast? with
    | none => exact absurd (List.getLast?_eq_none_iff.mp hl) hne
    | some d => simp [Schedule.fromApi, hl]
  · intro s h
    rw [right_eq s h]
    rfl
  · intro s h
    simp [Schedule.has_more, checkedSub, Schedule.PAGE_SIZE, h]
  · intro s h1 hc
    have h2 : pageWinStart s ≤ s.games.length - 1 := by
      have hd := Nat.div_mul_le_self s.cursor 5
      simp only [pageWinStart, Schedule.PAGE_SIZE]
      omega
    rw [page_eq_some dl ds s h1 h2]
    rfl

/-- Witness for the amended C7 at concrete inputs. -/
theorem core_no_panic_when_adequate_witness :
    (Schedule.fromApi samplePayload : Option (Schedule Nat)).isSome = true ∧
    (sampleSchedule 14 7).right.isSome = true ∧
    (sampleSchedule 14 7).has_more.isSome = true ∧
    ((sampleSchedule 14 7).page 0 1).isSome = true := by
  obtain ⟨h1, h2, h3, h4⟩ := core_no_panic_when_adequate (0 : Nat) 1
  exact ⟨h1 samplePayload (by simp [samplePayload]), h2 _ (by decide), h3 _ (by decide),
    h4 _ (by decide) (by decide)⟩

/-- `Schedule::page` at cursor `0` on a nonempty listing: the window begins at
index `0`, has `min 5 (len - 1)` snippets, and snippet `j` renders game `j`
with focus index `0`. -/
theorem page_at_zero {Img : Type} (dl ds : Img) (gs : List (Game Img))
    (hlen : 1 ≤ gs.length) :
    ∃ snips s2, Schedule.page dl ds { games := gs, cursor := 0 } = some (snips, s2) ∧
      snips.length = min 5 (gs.length - 1) ∧
      ∀ j < snips.length, snips[j]? = (gs[j]?).map (mkSnippet dl ds 0 j) := by
  set s : Schedule Img := { games := gs, cursor := 0 } with hs
  have hws0 : pageWinStart s = 0 := by simp [pageWinStart, hs]
  have h2 : pageWinStart s ≤ s.games.length - 1 := by
    rw [hws0]
    exact Nat.zero_le _
  refine ⟨_, _, page_eq_some dl ds s hlen h2, ?_, ?_⟩
  · rw [renderSlice_fst_length dl ds _ (pageSlice s) 0, pageSlice_length s]
    simp only [pageWinEnd, hws0, Schedule.PAGE_SIZE, Nat.zero_add, Nat.sub_zero]
  · intro j hj
    rw [renderSlice_fst_length dl ds _ (pageSlice s) 0, pageSlice_length s] at hj
    rw [renderSlice_fst_get dl ds _ (pageSlice s) 0 j, Nat.zero_add,
      pageSlice_get s j hj, hws0, Nat.zero_add]
    rfl

/-- C10: a payload accepted by the conversion yields a schedule whose cursor is
`0` — the focused item is the first game of the last `dates` entry —
`has_less` is false, and (when the listing is nonempty) `page` returns the
window beginning at index `0` with focus index `0`. -/
theorem fresh_schedule_cursor_zero {Img : Type} (dl ds : Img) (payload : api.Schedule)
    (d : api.Date) (hd : payload.dates.getLast? = some d) :
    ∃ s : Schedule Img, Schedule.fromApi payload = some s ∧
      s.cursor = 0 ∧
      s.has_less = false ∧
      s.games = d.games.map (gameOfApi : api.Game → Game Img) ∧
      s.games.head? = (d.games.head?).map (gameOfApi : api.Game → Game Img) ∧
      (1 ≤ s.games.length →
        ∃ snips s2, s.page dl ds = some (snips, s2) ∧
          snips.length = min 5 (s.games.length - 1) ∧
          ∀ j < snips.length, snips[j]? = (s.games[j]?).map (mkSnippet dl ds 0 j)) := by
  refine ⟨{ games := d.games.map (gameOfApi : api.Game → Game Img), cursor := 0 }, ?_, rfl, rfl, rfl,
    ?_, ?_⟩
  · simp [Schedule.fromApi, hd]
  · simp [List.head?_map]
  · intro hlen
    exact page_at_zero dl ds (d.games.map (gameOfApi : api.Game → Game Img)) hlen

/-- Witness for C10 at the concrete one-entry payload: conversion succeeds with
cursor `0`, `has_less` false, and a page whose window starts at game `0`. -/
theorem fresh_schedule_cursor_zero_witness :
    ∃ s : Schedule Nat, Schedule.fromApi samplePayload = some s ∧
      s.cursor = 0 ∧ s.has_less = false := by
  obtain ⟨s, h1, h2, h3, -⟩ :=
    fresh_schedule_cursor_zero (0 : Nat) 1 samplePayload sampleDate rfl
  exact ⟨s, h1, h2, h3⟩

end lineup
